import Mathlib

/-!
Shallow embedding of `olx_car_cover_scraper.py` (class `OLXCarCoverScraper`
plus its `main` driver) and proofs of the specified properties.

HTML documents are modelled as a tree of element and text nodes; the
BeautifulSoup operations the script uses (`find`, `find_all`,
`get_text(strip=True)`) are embedded as recursive functions over that tree.
Network fetching (`requests.Session.get`) and HTML parsing of raw payloads
(`BeautifulSoup(content, 'html.parser')`) are I/O respectively library
black-boxes; the loop is therefore parametrised by a fetch oracle
`fetch : String → Option String` (URL to raw payload, `none` = the
`requests.RequestException` branch of `get_page_content`) and a parse oracle
`soupOf : String → Html` mapping a raw payload to its parsed document.
Everything downstream of those two oracles follows the Python source.
-/

/-- An HTML node: either a text node or an element with a tag name, an
attribute list and children. -/
inductive Html where
  | text : String → Html
  | elem : String → List (String × String) → List Html → Html
deriving Repr

/-- Value of an attribute on an attribute list, if present
(`tag.get(key)` / `tag['key']`). -/
def attrVal (attrs : List (String × String)) (key : String) : Option String :=
  (attrs.find? (fun p => p.1 == key)).map (fun p => p.2)

mutual
/-- First descendant of a node satisfying `p`, in document (pre-)order;
embeds BeautifulSoup `element.find(...)`, which searches descendants only. -/
def findFirst (p : Html → Bool) : Html → Option Html
  | .text _ => none
  | .elem _ _ children => findFirstList p children

/-- `findFirst` over a child list: each child is checked before its own
descendants, and before its later siblings. -/
def findFirstList (p : Html → Bool) : List Html → Option Html
  | [] => none
  | c :: cs =>
    if p c then some c
    else
      match findFirst p c with
      | some r => some r
      | none => findFirstList p cs
end

mutual
/-- All descendants of a node satisfying `p`, in document (pre-)order;
embeds BeautifulSoup `soup.find_all(...)`. -/
def findAllNode (p : Html → Bool) : Html → List Html
  | .text _ => []
  | .elem _ _ children => findAllList p children

/-- `findAllNode` over a child list. -/
def findAllList (p : Html → Bool) : List Html → List Html
  | [] => []
  | c :: cs => (if p c then [c] else []) ++ findAllNode p c ++ findAllList p cs
end

mutual
/-- All text fragments in a subtree, in document order. -/
def textFragments : Html → List String
  | .text s => [s]
  | .elem _ _ children => textFragmentsList children

/-- `textFragments` over a child list. -/
def textFragmentsList : List Html → List String
  | [] => []
  | c :: cs => textFragments c ++ textFragmentsList cs
end

/-- Python `str.strip()`: drop whitespace from both ends (computed on the
character list so that it evaluates by kernel reduction). -/
def pyStrip (s : String) : String :=
  ⟨(((s.data.dropWhile Char.isWhitespace).reverse.dropWhile
      Char.isWhitespace).reverse)⟩

/-- Concatenation of a list of strings (the empty separator join). -/
def concatStrings (l : List String) : String :=
  l.foldl (fun acc s => acc ++ s) ""

/-- `element.get_text(strip=True)`: every text fragment stripped of
surrounding whitespace, empty fragments dropped, the rest concatenated. -/
def getTextStrip (h : Html) : String :=
  concatStrings (((textFragments h).map pyStrip).filter (fun s => s ≠ ""))

/-- The per-run configuration built by `OLXCarCoverScraper.__init__`
(headers and the requests session are transport details handled by the
fetch oracle). -/
structure Scraper where
  base_url : String
  search_url : String
deriving Repr, DecidableEq

/-- `OLXCarCoverScraper.__init__`. -/
def Scraper.init : Scraper :=
  { base_url := "https://www.olx.in"
    search_url := "https://www.olx.in/items/q-car-cover" }

/-- Whether the first list is an initial segment of the second. -/
def charsLeadWith : List Char → List Char → Bool
  | [], _ => true
  | _ :: _, [] => false
  | a :: as, b :: bs => a == b && charsLeadWith as bs

/-- Whether `pre` is an initial segment of `s` (character-list level, so it
evaluates by kernel reduction). -/
def strLeadWith (pre s : String) : Bool :=
  charsLeadWith pre.data s.data

/-- Modelled from the library function `urllib.parse.urljoin`, restricted to
the cases arising with this program's fixed base address
`https://www.olx.in` (scheme `https`, empty path): an already-absolute URL
is returned unchanged, a scheme-relative one inherits the base's scheme, an
absolute path is appended to the authority, a relative path is resolved
against the (empty) base path, and an empty URL yields the base itself. -/
def urljoin (base url : String) : String :=
  if url = "" then base
  else if strLeadWith "http://" url ∨ strLeadWith "https://" url then url
  else if strLeadWith "//" url then "https:" ++ url
  else if strLeadWith "/" url then base ++ url
  else base ++ "/" ++ url

/-- One scraped listing: the dict built by `parse_listing`, whose keys are
always exactly `title, price, location, link, date, description` in
insertion order. -/
structure ListingRecord where
  title : String
  price : String
  location : String
  link : String
  date : String
  description : String
deriving Repr, DecidableEq

/-- `element.find(tag, {'data-aut-id': autId})`. -/
def findAut (node : Html) (tag autId : String) : Option Html :=
  findFirst
    (fun h =>
      match h with
      | .elem t attrs _ => t == tag && attrVal attrs "data-aut-id" == some autId
      | .text _ => false)
    node

/-- `element.find('a', href=True)`: first descendant anchor carrying an
`href` attribute (of any value). -/
def findHrefAnchor (node : Html) : Option Html :=
  findFirst
    (fun h =>
      match h with
      | .elem t attrs _ => t == "a" && (attrVal attrs "href").isSome
      | .text _ => false)
    node

/-- The `href` attribute of a node (defined when `findHrefAnchor` found it). -/
def hrefAttr : Html → String
  | .elem _ attrs _ => (attrVal attrs "href").getD ""
  | .text _ => ""

/-- `OLXCarCoverScraper.parse_listing`. Each field comes from a
`find`-or-sentinel lookup; the `try/except` wrapper of the source can only
return `None` on a library exception, which the pure tree model cannot
raise, so the embedding is total. -/
def parseListing (s : Scraper) (node : Html) : ListingRecord :=
  { title :=
      match findAut node "span" "itemTitle" with
      | some e => getTextStrip e
      | none => "N/A"
    price :=
      match findAut node "span" "itemPrice" with
      | some e => getTextStrip e
      | none => "N/A"
    location :=
      match findAut node "span" "item-location" with
      | some e => getTextStrip e
      | none => "N/A"
    link :=
      match findHrefAnchor node with
      | some e => urljoin s.base_url (hrefAttr e)
      | none => "N/A"
    date :=
      match findAut node "span" "itemDate" with
      | some e => getTextStrip e
      | none => "N/A"
    description :=
      match findAut node "span" "itemDescription" with
      | some e => getTextStrip e
      | none => "N/A" }

/-- Whether an element is a `div` with `data-aut-id="itemBox"` (the primary
selector `soup.find_all('div', {'data-aut-id': 'itemBox'})`). -/
def isItemBox : Html → Bool
  | .elem t attrs _ => t == "div" && attrVal attrs "data-aut-id" == some "itemBox"
  | .text _ => false

/-- Whether `needle` occurs as a contiguous sublist of the second list. -/
def charsContain (needle : List Char) : List Char → Bool
  | [] => needle.isEmpty
  | c :: cs => charsLeadWith needle (c :: cs) || charsContain needle cs

/-- Case-insensitive substring test on the lowered character lists. -/
def containsCI (s needle : String) : Bool :=
  charsContain (needle.data.map Char.toLower) (s.data.map Char.toLower)

/-- Whether an element is a `div` whose `class` attribute matches the
fallback pattern `re.compile(r'.*item.*', re.I)`: the class string contains
`item` case-insensitively. -/
def isItemClassDiv : Html → Bool
  | .elem t attrs _ =>
      t == "div" &&
        (match attrVal attrs "class" with
         | some c => containsCI c "item"
         | none => false)
  | .text _ => false

/-- Candidate listing nodes of a parsed page: the primary selector, falling
back to the class-name selector when the primary finds nothing
(`scrape_listings` lines 101-105). -/
def candidateNodes (soup : Html) : List Html :=
  let primary := findAllNode isItemBox soup
  if primary.isEmpty then findAllNode isItemClassDiv soup else primary

/-- Records a page with candidate nodes `nodes` contributes to the running
collection: each node parsed, kept iff its title is not the sentinel
(`scrape_listings` lines 113-116; `parsed_listing` itself is always truthy
in the pure model, see `parseListing`). -/
def validRecords (s : Scraper) (nodes : List Html) : List ListingRecord :=
  (nodes.map (parseListing s)).filter (fun r => r.title ≠ "N/A")

/-- The URL requested for a page index (`scrape_listings` lines 88-91). -/
def pageUrl (s : Scraper) (page : Nat) : String :=
  if page = 1 then s.search_url else s.search_url ++ "?page=" ++ toString page

/-- Python truthiness of the fetched content as tested by
`if not content:`: `None` and the empty payload are both falsy. -/
def contentFalsy : Option String → Bool
  | none => true
  | some s => s == ""

/-- What one iteration of the scrape loop does with its page, after the
fetch: skip it, stop the whole loop, or contribute records. -/
inductive PageOutcome where
  | fetchFail
  | noListings
  | ok : List ListingRecord → PageOutcome
deriving Repr, DecidableEq

/-- Classification of page `page` by one loop iteration: falsy content is
the `continue` branch, an empty candidate set the `break` branch, and
otherwise the page contributes its valid records. -/
def pageOutcome (s : Scraper) (fetch : String → Option String)
    (soupOf : String → Html) (page : Nat) : PageOutcome :=
  if contentFalsy (fetch (pageUrl s page)) then .fetchFail
  else if (candidateNodes (soupOf ((fetch (pageUrl s page)).getD ""))).isEmpty then
    .noListings
  else .ok (validRecords s (candidateNodes (soupOf ((fetch (pageUrl s page)).getD ""))))

/-- Observable state of a run: the aggregated records, the page indices
passed to the fetcher (in order), and the page indices on which the
extractor (BeautifulSoup parse + selectors) actually ran. -/
structure RunState where
  records : List ListingRecord
  fetched : List Nat
  extracted : List Nat
deriving Repr, DecidableEq

/-- `range(a, a+n)`: the page indices the `for` loop iterates over. -/
def pagesFrom : Nat → Nat → List Nat
  | _, 0 => []
  | a, n + 1 => a :: pagesFrom (a + 1) n

/-- The `for page in range(1, max_pages+1)` loop of `scrape_listings`:
fetch each page; on falsy content log and `continue`; on an empty candidate
set log and `break`; otherwise append the page's valid records. The
`time.sleep(2)` is a pure delay with no effect on the state. -/
def scrapeLoop (s : Scraper) (fetch : String → Option String)
    (soupOf : String → Html) : List Nat → RunState → RunState
  | [], st => st
  | p :: rest, st =>
    let st1 : RunState := { st with fetched := st.fetched ++ [p] }
    match pageOutcome s fetch soupOf p with
    | .fetchFail => scrapeLoop s fetch soupOf rest st1
    | .noListings => { st1 with extracted := st1.extracted ++ [p] }
    | .ok recs =>
        scrapeLoop s fetch soupOf rest
          { st1 with
              records := st1.records ++ recs
              extracted := st1.extracted ++ [p] }

/-- `OLXCarCoverScraper.scrape_listings(max_pages)`, instrumented with the
fetched and extracted page traces. -/
def scrapeRun (s : Scraper) (fetch : String → Option String)
    (soupOf : String → Html) (maxPages : Nat) : RunState :=
  scrapeLoop s fetch soupOf (pagesFrom 1 maxPages) ⟨[], [], []⟩

/-- The return value of `scrape_listings`. -/
def scrapeListings (s : Scraper) (fetch : String → Option String)
    (soupOf : String → Html) (maxPages : Nat) : List ListingRecord :=
  (scrapeRun s fetch soupOf maxPages).records

/-- The fixed key order of every record dict built by `parse_listing`,
which is also `listings[0].keys()` for any non-empty collection. -/
def fieldnames : List String :=
  ["title", "price", "location", "link", "date", "description"]

/-- A record as the ordered key/value pairs of its dict. -/
def recordPairs (r : ListingRecord) : List (String × String) :=
  [("title", r.title), ("price", r.price), ("location", r.location),
   ("link", r.link), ("date", r.date), ("description", r.description)]

/-- One CSV data row: the record's values in `fieldnames` order, as
`csv.DictWriter.writerows` emits them. -/
def csvRow (r : ListingRecord) : List String :=
  [r.title, r.price, r.location, r.link, r.date, r.description]

/-- `OLXCarCoverScraper.save_to_json`: the JSON file's contents as an array
of objects (each object its ordered key/value pairs). Always writes,
including the empty array for an empty collection. -/
def saveToJson (listings : List ListingRecord) : List (List (String × String)) :=
  listings.map recordPairs

/-- `OLXCarCoverScraper.save_to_csv`: `none` when the collection is empty
(early return, no file written); otherwise the written rows, a header row
followed by one data row per record. -/
def saveToCsv (listings : List ListingRecord) : Option (List (List String)) :=
  if listings.isEmpty then none
  else some (fieldnames :: listings.map csvRow)

/-- The CSV file's rows excluding the header: none at all when no file was
written. -/
def csvDataRows : Option (List (List String)) → List (List String)
  | none => []
  | some rows => rows.drop 1

/-- Result of one `main()` invocation: the collection and the contents of
the two output files (`none` = file not written). -/
structure MainResult where
  listings : List ListingRecord
  jsonFile : Option (List (List (String × String)))
  csvFile : Option (List (List String))
deriving Repr, DecidableEq

/-- `main()`: builds a scraper via `__init__`, runs a 3-page scrape, and
only if the collection is truthy (non-empty) invokes both serializers;
otherwise it logs "No listings found" and writes nothing. -/
def mainRun (fetch : String → Option String) (soupOf : String → Html) : MainResult :=
  let scraper := Scraper.init
  let listings := scrapeListings scraper fetch soupOf 3
  if listings.isEmpty then
    { listings := listings, jsonFile := none, csvFile := none }
  else
    { listings := listings
      jsonFile := some (saveToJson listings)
      csvFile := saveToCsv listings }

/-! ### Loop characterization

`scrapeLoop` is characterised by three list-valued functions of the
per-page outcome, which the claim proofs reason about. -/

/-- Pages the loop passes to the fetcher, as a function of the outcome
classification: every page reached is fetched, and the page after a
`noListings` page is never reached. -/
def fetchedAux (o : Nat → PageOutcome) : List Nat → List Nat
  | [] => []
  | p :: rest =>
    match o p with
    | .noListings => [p]
    | _ => p :: fetchedAux o rest

/-- Records the loop accumulates, as a function of the outcome
classification. -/
def recordsAux (o : Nat → PageOutcome) : List Nat → List ListingRecord
  | [] => []
  | p :: rest =>
    match o p with
    | .fetchFail => recordsAux o rest
    | .noListings => []
    | .ok recs => recs ++ recordsAux o rest

/-- Pages on which the extractor runs, as a function of the outcome
classification: exactly the reached pages whose content was truthy. -/
def extractedAux (o : Nat → PageOutcome) : List Nat → List Nat
  | [] => []
  | p :: rest =>
    match o p with
    | .fetchFail => extractedAux o rest
    | .noListings => [p]
    | .ok _ => p :: extractedAux o rest

/-- Collapsing an empty-but-successful payload to the fetcher's failure
value `none`: used to state that the loop cannot tell the two apart. -/
def normalizeFetch (f : String → Option String) : String → Option String :=
  fun u =>
    match f u with
    | none => none
    | some s => if s = "" then none else some s

/-! ### Concrete fixtures

Small concrete documents and oracles used to instantiate the theorems. -/

/-- A parsed document wrapping top-level nodes. -/
def docOf (ns : List Html) : Html := .elem "[document]" [] ns

/-- A listing card's title span (with whitespace to exercise stripping). -/
def titleSpanA : Html :=
  .elem "span" [("data-aut-id", "itemTitle")] [.text "  Car Cover A "]

/-- The anchor of the first fixture card. -/
def anchorA : Html := .elem "a" [("href", "/item/a1")] [.text "details"]

/-- A fully usable listing card (page 1 of the mixed scenario). -/
def nodeP1 : Html :=
  .elem "div" [("data-aut-id", "itemBox")]
    [titleSpanA,
     .elem "span" [("data-aut-id", "itemPrice")] [.text "Rs 500"],
     anchorA]

/-- A second usable listing card (page 3 of the mixed scenario). -/
def nodeP3 : Html :=
  .elem "div" [("data-aut-id", "itemBox")]
    [.elem "span" [("data-aut-id", "itemTitle")] [.text "Car Cover C"],
     .elem "a" [("href", "https://img.example.com/c")] [.text "more"]]

/-- Fetch oracle of the mixed scenario: page 1 and page 3 succeed, page 2's
request raises (timeout), i.e. returns the failure value. -/
def mixedFetch : String → Option String := fun u =>
  if u = pageUrl Scraper.init 1 then some "PAGE1"
  else if u = pageUrl Scraper.init 3 then some "PAGE3"
  else none

/-- Parse oracle of the mixed scenario: one card on page 1, one on page 3. -/
def mixedSoup : String → Html := fun c =>
  if c = "PAGE1" then docOf [nodeP1]
  else if c = "PAGE3" then docOf [nodeP3]
  else docOf []

/-- Fetch oracle where every page succeeds but the markup has no candidate
nodes at all. -/
def emptyFetch : String → Option String := fun _ => some "NOCARDS"

/-- Parse oracle for `emptyFetch`: markup with no `div` anywhere. -/
def emptySoup : String → Html := fun _ =>
  docOf [.elem "html" [] [.elem "body" [] [.text "nothing here"]]]

/-- Like `mixedFetch`, except page 2's request succeeds with an empty
payload instead of raising. -/
def blankFetch : String → Option String := fun u =>
  if u = pageUrl Scraper.init 2 then some "" else mixedFetch u

/-- A title span whose genuine text strips to exactly the sentinel. -/
def naTitleSpan : Html :=
  .elem "span" [("data-aut-id", "itemTitle")] [.text "  N/A  "]

/-- A listing card whose real title text is the literal sentinel. -/
def naNode : Html :=
  .elem "div" [("data-aut-id", "itemBox")]
    [naTitleSpan, .elem "span" [("data-aut-id", "itemPrice")] [.text "Rs 99"]]

theorem scrapeLoop_eq (s : Scraper) (fetch : String → Option String)
    (soupOf : String → Html) (pages : List Nat) (st : RunState) :
    scrapeLoop s fetch soupOf pages st =
      { records := st.records ++ recordsAux (pageOutcome s fetch soupOf) pages
        fetched := st.fetched ++ fetchedAux (pageOutcome s fetch soupOf) pages
        extracted := st.extracted ++ extractedAux (pageOutcome s fetch soupOf) pages } := by
  induction pages generalizing st with
  | nil => simp [scrapeLoop, recordsAux, fetchedAux, extractedAux]
  | cons p rest ih =>
    cases h : pageOutcome s fetch soupOf p with
    | fetchFail =>
      simp [scrapeLoop, h, ih, recordsAux, fetchedAux, extractedAux]
    | noListings =>
      simp [scrapeLoop, h, recordsAux, fetchedAux, extractedAux]
    | ok recs =>
      simp [scrapeLoop, h, ih, recordsAux, fetchedAux, extractedAux]

theorem scrapeRun_eq (s : Scraper) (fetch : String → Option String)
    (soupOf : String → Html) (maxPages : Nat) :
    scrapeRun s fetch soupOf maxPages =
      { records := recordsAux (pageOutcome s fetch soupOf) (pagesFrom 1 maxPages)
        fetched := fetchedAux (pageOutcome s fetch soupOf) (pagesFrom 1 maxPages)
        extracted := extractedAux (pageOutcome s fetch soupOf) (pagesFrom 1 maxPages) } := by
  simp [scrapeRun, scrapeLoop_eq]

theorem mem_pagesFrom {k a n : Nat} : k ∈ pagesFrom a n ↔ a ≤ k ∧ k < a + n := by
  induction n generalizing a with
  | zero => simp [pagesFrom]
  | succ n ih =>
    simp only [pagesFrom, List.mem_cons, ih]
    omega

theorem fetchedAux_subset {o : Nat → PageOutcome} {pages : List Nat} {k : Nat}
    (h : k ∈ fetchedAux o pages) : k ∈ pages := by
  induction pages with
  | nil => simp [fetchedAux] at h
  | cons p rest ih =>
    simp only [fetchedAux] at h
    cases hp : o p <;> simp [hp] at h <;>
      first
      | (rcases h with h | h
         · simp [h]
         · exact List.mem_cons_of_mem _ (ih h))
      | simp [h]

theorem extractedAux_subset {o : Nat → PageOutcome} {pages : List Nat} {k : Nat}
    (h : k ∈ extractedAux o pages) : k ∈ pages := by
  induction pages with
  | nil => simp [extractedAux] at h
  | cons p rest ih =>
    simp only [extractedAux] at h
    cases hp : o p <;> simp [hp] at h
    · exact List.mem_cons_of_mem _ (ih h)
    · simp [h]
    · rcases h with h | h
      · simp [h]
      · exact List.mem_cons_of_mem _ (ih h)

theorem head_mem_fetchedAux {o : Nat → PageOutcome} {p : Nat} {rest : List Nat} :
    p ∈ fetchedAux o (p :: rest) := by
  cases h : o p <;> simp [fetchedAux, h]

theorem fetchedAux_stop {o : Nat → PageOutcome} {k : Nat}
    (hk : o k = .noListings) :
    ∀ n a, a ≤ k → ∀ j, k < j → j ∉ fetchedAux o (pagesFrom a n) := by
  intro n
  induction n with
  | zero => intro a _ j _; simp [pagesFrom, fetchedAux]
  | succ n ih =>
    intro a ha j hj hmem
    simp only [pagesFrom] at hmem
    cases hA : o a with
    | noListings =>
      simp [fetchedAux, hA] at hmem
      omega
    | fetchFail =>
      simp [fetchedAux, hA] at hmem
      rcases hmem with rfl | hmem
      · omega
      · have hak : a ≠ k := fun h => by rw [h, hk] at hA; cases hA
        exact ih (a + 1) (by omega) j hj hmem
    | ok recs =>
      simp [fetchedAux, hA] at hmem
      rcases hmem with rfl | hmem
      · omega
      · have hak : a ≠ k := fun h => by rw [h, hk] at hA; cases hA
        exact ih (a + 1) (by omega) j hj hmem

theorem fetchedAux_all {o : Nat → PageOutcome} :
    ∀ pages : List Nat, (∀ p ∈ pages, o p ≠ .noListings) →
      fetchedAux o pages = pages := by
  intro pages
  induction pages with
  | nil => intro _; simp [fetchedAux]
  | cons p rest ih =>
    intro h
    have hp := h p (by simp)
    cases hP : o p with
    | noListings => exact absurd hP hp
    | fetchFail =>
      simp [fetchedAux, hP]
      exact ih (fun q hq => h q (List.mem_cons_of_mem _ hq))
    | ok recs =>
      simp [fetchedAux, hP]
      exact ih (fun q hq => h q (List.mem_cons_of_mem _ hq))

theorem fetchedAux_next {o : Nat → PageOutcome} {k : Nat}
    (hk : o k ≠ .noListings) :
    ∀ n a, k ∈ fetchedAux o (pagesFrom a n) → k + 1 ∈ pagesFrom a n →
      k + 1 ∈ fetchedAux o (pagesFrom a n) := by
  intro n
  induction n with
  | zero => intro a h _; simp [pagesFrom, fetchedAux] at h
  | succ n ih =>
    intro a hmem hnext
    simp only [pagesFrom] at hmem hnext ⊢
    cases hA : o a with
    | noListings =>
      simp [fetchedAux, hA] at hmem
      subst hmem
      exact absurd hA hk
    | fetchFail =>
      simp only [fetchedAux, hA, List.mem_cons] at hmem ⊢
      rcases hmem with rfl | hmem
      · right
        have h1 : k + 1 ∈ pagesFrom (k + 1) n := by
          rcases List.mem_cons.mp hnext with h | h
          · exact absurd h (by omega)
          · exact h
        have hn : 0 < n := by
          have := mem_pagesFrom.mp h1
          omega
        cases n with
        | zero => omega
        | succ n2 => exact head_mem_fetchedAux
      · have hk1 : a + 1 ≤ k := by
          have := mem_pagesFrom.mp (fetchedAux_subset hmem)
          omega
        right
        refine ih (a + 1) hmem ?_
        rcases List.mem_cons.mp hnext with h | h
        · exact absurd h (by omega)
        · exact h
    | ok recs =>
      simp only [fetchedAux, hA, List.mem_cons] at hmem ⊢
      rcases hmem with rfl | hmem
      · right
        have h1 : k + 1 ∈ pagesFrom (k + 1) n := by
          rcases List.mem_cons.mp hnext with h | h
          · exact absurd h (by omega)
          · exact h
        have hn : 0 < n := by
          have := mem_pagesFrom.mp h1
          omega
        cases n with
        | zero => omega
        | succ n2 => exact head_mem_fetchedAux
      · have hk1 : a + 1 ≤ k := by
          have := mem_pagesFrom.mp (fetchedAux_subset hmem)
          omega
        right
        refine ih (a + 1) hmem ?_
        rcases List.mem_cons.mp hnext with h | h
        · exact absurd h (by omega)
        · exact h

theorem mem_recordsAux {o : Nat → PageOutcome} {pages : List Nat}
    {r : ListingRecord} (h : r ∈ recordsAux o pages) :
    ∃ p recs, p ∈ pages ∧ o p = .ok recs ∧ r ∈ recs := by
  induction pages with
  | nil => simp [recordsAux] at h
  | cons p rest ih =>
    simp only [recordsAux] at h
    cases hp : o p with
    | fetchFail =>
      rw [hp] at h
      obtain ⟨q, recs, hq, ho, hr⟩ := ih h
      exact ⟨q, recs, List.mem_cons_of_mem _ hq, ho, hr⟩
    | noListings => rw [hp] at h; simp at h
    | ok recs =>
      rw [hp] at h
      rcases List.mem_append.mp h with h | h
      · exact ⟨p, recs, by simp, hp, h⟩
      · obtain ⟨q, recs2, hq, ho, hr⟩ := ih h
        exact ⟨q, recs2, List.mem_cons_of_mem _ hq, ho, hr⟩

theorem extractedAux_not_fetchFail {o : Nat → PageOutcome} {p : Nat}
    (h : o p = .fetchFail) :
    ∀ pages : List Nat, p ∉ extractedAux o pages := by
  intro pages
  induction pages with
  | nil => simp [extractedAux]
  | cons q rest ih =>
    simp only [extractedAux]
    cases hq : o q with
    | fetchFail => exact ih
    | noListings =>
      simp
      intro hpq
      subst hpq
      rw [h] at hq
      cases hq
    | ok recs =>
      simp
      constructor
      · intro hpq
        subst hpq
        rw [h] at hq
        cases hq
      · exact ih

/-- The page outcome spelt out for the contributing case. -/
theorem pageOutcome_ok_iff (s : Scraper) (fetch : String → Option String)
    (soupOf : String → Html) (p : Nat) (recs : List ListingRecord) :
    pageOutcome s fetch soupOf p = .ok recs ↔
      contentFalsy (fetch (pageUrl s p)) = false ∧
      (candidateNodes (soupOf ((fetch (pageUrl s p)).getD ""))).isEmpty = false ∧
      recs = validRecords s (candidateNodes (soupOf ((fetch (pageUrl s p)).getD ""))) := by
  unfold pageOutcome
  cases h1 : contentFalsy (fetch (pageUrl s p)) with
  | true => simp [h1]
  | false =>
    cases h2 : (candidateNodes (soupOf ((fetch (pageUrl s p)).getD ""))).isEmpty with
    | true => simp [h1, h2]
    | false => simp [h1, h2, eq_comm]

/-- Membership in a page's valid records is exactly: image of a candidate
node under `parseListing`, with a non-sentinel title. -/
theorem mem_validRecords {s : Scraper} {nodes : List Html} {r : ListingRecord} :
    r ∈ validRecords s nodes ↔
      r ∈ nodes.map (parseListing s) ∧ r.title ≠ "N/A" := by
  simp [validRecords, List.mem_filter]

theorem pageOutcome_normalize (s : Scraper) (f : String → Option String)
    (soupOf : String → Html) (p : Nat) :
    pageOutcome s (normalizeFetch f) soupOf p = pageOutcome s f soupOf p := by
  unfold pageOutcome normalizeFetch
  cases h : f (pageUrl s p) with
  | none => simp [h, contentFalsy]
  | some str =>
    by_cases hs : str = ""
    · subst hs
      simp [h, contentFalsy]
    · simp only [h, if_neg hs]

/-! ### Claim theorems -/

/-- Claim C1, counterexample: on a run whose page 1 has zero candidate
nodes the collection is empty, and `main` then writes neither output file —
in particular the JSON file does not receive an empty array, contrary to
the claim. -/
theorem emptyRun_json_counterexample :
    (mainRun emptyFetch emptySoup).listings = [] ∧
    pageOutcome Scraper.init emptyFetch emptySoup 1 = .noListings ∧
    (scrapeRun Scraper.init emptyFetch emptySoup 3).fetched = [1] ∧
    (mainRun emptyFetch emptySoup).csvFile = none ∧
    ¬ (mainRun emptyFetch emptySoup).jsonFile = some (saveToJson []) := by
  refine ⟨rfl, rfl, rfl, rfl, ?_⟩
  intro h
  have h2 : (mainRun emptyFetch emptySoup).jsonFile = none := rfl
  rw [h2] at h
  cases h

/-- Claim C1 as amended: when the run produces an empty collection, `main`
skips both serializer calls, so neither a CSV nor a JSON file is written;
`save_to_csv` invoked directly on an empty collection skips (writes
nothing), while `save_to_json` invoked directly would write an empty
array. -/
theorem emptyRun_skips_both_saves :
    ∀ (fetch : String → Option String) (soupOf : String → Html),
      (mainRun fetch soupOf).listings = [] →
      (mainRun fetch soupOf).jsonFile = none ∧
      (mainRun fetch soupOf).csvFile = none ∧
      saveToCsv [] = none ∧
      saveToJson [] = [] := by
  intro f so h
  have hl : (mainRun f so).listings = scrapeListings Scraper.init f so 3 := by
    unfold mainRun
    by_cases he : (scrapeListings Scraper.init f so 3).isEmpty <;> simp [he]
  rw [hl] at h
  have he : (scrapeListings Scraper.init f so 3).isEmpty := by simp [h]
  refine ⟨?_, ?_, rfl, rfl⟩ <;> (unfold mainRun; simp [he])

/-- Claim C1, witness for the amended statement. -/
theorem emptyRun_skips_both_saves_witness :
    (mainRun emptyFetch emptySoup).jsonFile = none ∧
    (mainRun emptyFetch emptySoup).csvFile = none ∧
    saveToCsv [] = none ∧
    saveToJson [] = [] :=
  emptyRun_skips_both_saves emptyFetch emptySoup rfl

/-- Claim C2: a page classified `noListings` (zero candidate nodes after
both selector strategies) means no later page is ever fetched; and when no
page in range is so classified, every page `1..maxPages` is fetched, so
discovery failure is the only early-termination condition. -/
theorem discovery_failure_only_termination :
    (∀ (s : Scraper) (fetch : String → Option String) (soupOf : String → Html)
        (m k j : Nat),
        pageOutcome s fetch soupOf k = .noListings → 1 ≤ k → k < j →
        j ∉ (scrapeRun s fetch soupOf m).fetched) ∧
    (∀ (s : Scraper) (fetch : String → Option String) (soupOf : String → Html)
        (m : Nat),
        (∀ p ∈ pagesFrom 1 m, pageOutcome s fetch soupOf p ≠ .noListings) →
        (scrapeRun s fetch soupOf m).fetched = pagesFrom 1 m) := by
  constructor
  · intro s f so m k j hk h1 hj
    rw [scrapeRun_eq]
    exact fetchedAux_stop hk m 1 h1 j hj
  · intro s f so m h
    rw [scrapeRun_eq]
    exact fetchedAux_all _ h

/-- Claim C2, witness. -/
theorem discovery_failure_only_termination_witness :
    2 ∉ (scrapeRun Scraper.init emptyFetch emptySoup 3).fetched ∧
    (scrapeRun Scraper.init mixedFetch mixedSoup 3).fetched = pagesFrom 1 3 :=
  ⟨discovery_failure_only_termination.1 Scraper.init emptyFetch emptySoup 3 1 2
      rfl (by decide) (by decide),
   discovery_failure_only_termination.2 Scraper.init mixedFetch mixedSoup 3
      (by decide)⟩

/-- Claim C3: a fetch failure on a reached page never terminates the loop
(the next in-range page is still fetched); and in the concrete scenario —
page 1 yields one record, page 2's fetch fails, page 3 yields one record,
`maxPages = 3` — the final collection is exactly the two records from
pages 1 and 3 in order. -/
theorem fetch_failure_never_terminates :
    (∀ (s : Scraper) (fetch : String → Option String) (soupOf : String → Html)
        (m k : Nat),
        pageOutcome s fetch soupOf k = .fetchFail →
        k ∈ (scrapeRun s fetch soupOf m).fetched →
        k + 1 ∈ pagesFrom 1 m →
        k + 1 ∈ (scrapeRun s fetch soupOf m).fetched) ∧
    (pageOutcome Scraper.init mixedFetch mixedSoup 2 = .fetchFail ∧
     scrapeListings Scraper.init mixedFetch mixedSoup 3 =
       [parseListing Scraper.init nodeP1, parseListing Scraper.init nodeP3] ∧
     (scrapeListings Scraper.init mixedFetch mixedSoup 3).length = 2) := by
  constructor
  · intro s f so m k hk hmem hnext
    rw [scrapeRun_eq] at hmem ⊢
    exact fetchedAux_next (by simp [hk]) m 1 hmem hnext
  · exact ⟨rfl, rfl, rfl⟩

/-- Claim C3, witness. -/
theorem fetch_failure_never_terminates_witness :
    3 ∈ (scrapeRun Scraper.init mixedFetch mixedSoup 3).fetched :=
  fetch_failure_never_terminates.1 Scraper.init mixedFetch mixedSoup 3 2 rfl
    (by decide) (by decide)

theorem scrapeListings_eq (s : Scraper) (fetch : String → Option String)
    (soupOf : String → Html) (m : Nat) :
    scrapeListings s fetch soupOf m =
      recordsAux (pageOutcome s fetch soupOf) (pagesFrom 1 m) := by
  unfold scrapeListings
  rw [scrapeRun_eq]

/-- Claim C4: every record in the aggregated collection has a non-sentinel
title; and membership in a page's contribution requires nothing beyond
being the parse of a candidate node with a non-sentinel title (records are
values, never mutated after being appended). -/
theorem collection_title_invariant :
    (∀ (s : Scraper) (fetch : String → Option String) (soupOf : String → Html)
        (m : Nat) (r : ListingRecord),
        r ∈ scrapeListings s fetch soupOf m → r.title ≠ "N/A") ∧
    (∀ (s : Scraper) (nodes : List Html) (r : ListingRecord),
        r ∈ validRecords s nodes ↔
          r ∈ nodes.map (parseListing s) ∧ r.title ≠ "N/A") := by
  constructor
  · intro s f so m r hr
    rw [scrapeListings_eq] at hr
    obtain ⟨p, recs, hp, ho, hrin⟩ := mem_recordsAux hr
    obtain ⟨h1, h2, rfl⟩ := (pageOutcome_ok_iff s f so p recs).mp ho
    exact (mem_validRecords.mp hrin).2
  · intro s nodes r
    exact mem_validRecords

/-- Claim C4, witness. -/
theorem collection_title_invariant_witness :
    (parseListing Scraper.init nodeP1).title ≠ "N/A" :=
  collection_title_invariant.1 Scraper.init mixedFetch mixedSoup 3
    (parseListing Scraper.init nodeP1) (by decide)

/-- Claim C5: for each of title, price, location, date, description, an
absent marker child yields exactly the sentinel `"N/A"` and a present one
yields its stripped text; for the link, an absent `href`-bearing anchor
yields `"N/A"` and a present one yields its `href` resolved against the
base address. -/
theorem field_extraction_sentinel :
    ∀ (s : Scraper) (node : Html),
      (findAut node "span" "itemTitle" = none →
        (parseListing s node).title = "N/A") ∧
      (∀ e, findAut node "span" "itemTitle" = some e →
        (parseListing s node).title = getTextStrip e) ∧
      (findAut node "span" "itemPrice" = none →
        (parseListing s node).price = "N/A") ∧
      (∀ e, findAut node "span" "itemPrice" = some e →
        (parseListing s node).price = getTextStrip e) ∧
      (findAut node "span" "item-location" = none →
        (parseListing s node).location = "N/A") ∧
      (∀ e, findAut node "span" "item-location" = some e →
        (parseListing s node).location = getTextStrip e) ∧
      (findAut node "span" "itemDate" = none →
        (parseListing s node).date = "N/A") ∧
      (∀ e, findAut node "span" "itemDate" = some e →
        (parseListing s node).date = getTextStrip e) ∧
      (findAut node "span" "itemDescription" = none →
        (parseListing s node).description = "N/A") ∧
      (∀ e, findAut node "span" "itemDescription" = some e →
        (parseListing s node).description = getTextStrip e) ∧
      (findHrefAnchor node = none → (parseListing s node).link = "N/A") ∧
      (∀ e, findHrefAnchor node = some e →
        (parseListing s node).link = urljoin s.base_url (hrefAttr e)) := by
  intro s node
  refine ⟨?_, ?_, ?_, ?_, ?_, ?_, ?_, ?_, ?_, ?_, ?_, ?_⟩ <;>
    first
      | (intro h
         simp [parseListing, h])
      | (intro e h
         simp [parseListing, h])

/-- Claim C5, witness: an empty card gives the sentinel; the fixture card
gives the stripped title text and the resolved link. -/
theorem field_extraction_sentinel_witness :
    (parseListing Scraper.init (.elem "div" [] [])).title = "N/A" ∧
    (parseListing Scraper.init nodeP1).title = getTextStrip titleSpanA ∧
    (parseListing Scraper.init nodeP1).link =
      urljoin Scraper.init.base_url (hrefAttr anchorA) := by
  refine ⟨?_, ?_, ?_⟩
  · exact (field_extraction_sentinel Scraper.init (.elem "div" [] [])).1 rfl
  · exact (field_extraction_sentinel Scraper.init nodeP1).2.1 titleSpanA rfl
  · exact
      (field_extraction_sentinel Scraper.init
        nodeP1).2.2.2.2.2.2.2.2.2.2.2 anchorA rfl

/-- Claim C6: a page on which discovery succeeds contributes exactly the
parses of its candidate nodes whose extracted title is non-sentinel, in
node order; in particular the contributed count equals the count of such
nodes. -/
theorem page_contribution_count :
    ∀ (s : Scraper) (fetch : String → Option String) (soupOf : String → Html)
      (p : Nat) (recs : List ListingRecord),
      pageOutcome s fetch soupOf p = .ok recs →
      recs = ((candidateNodes (soupOf ((fetch (pageUrl s p)).getD ""))).filter
          (fun n => (parseListing s n).title ≠ "N/A")).map (parseListing s) ∧
      recs.length = ((candidateNodes (soupOf ((fetch (pageUrl s p)).getD ""))).filter
          (fun n => (parseListing s n).title ≠ "N/A")).length := by
  intro s f so p recs h
  obtain ⟨h1, h2, rfl⟩ := (pageOutcome_ok_iff s f so p recs).mp h
  have hmain :
      validRecords s (candidateNodes (so ((f (pageUrl s p)).getD ""))) =
        ((candidateNodes (so ((f (pageUrl s p)).getD ""))).filter
          (fun n => (parseListing s n).title ≠ "N/A")).map (parseListing s) := by
    unfold validRecords
    rw [List.filter_map]
    rfl
  refine ⟨hmain, ?_⟩
  rw [hmain, List.length_map]

/-- Claim C6, witness. -/
theorem page_contribution_count_witness :
    (validRecords Scraper.init
        (candidateNodes (mixedSoup ((mixedFetch (pageUrl Scraper.init 1)).getD "")))).length =
      ((candidateNodes (mixedSoup ((mixedFetch (pageUrl Scraper.init 1)).getD ""))).filter
        (fun n => (parseListing Scraper.init n).title ≠ "N/A")).length :=
  (page_contribution_count Scraper.init mixedFetch mixedSoup 1
    (validRecords Scraper.init
      (candidateNodes (mixedSoup ((mixedFetch (pageUrl Scraper.init 1)).getD ""))))
    (by rfl)).2

/-- Claim C7: for any collection handed to both serializers, the JSON
array length equals the CSV row count excluding the header, every JSON
object carries the keys in the fixed column order, and its values in that
order are exactly the corresponding CSV row. -/
theorem json_csv_consistency :
    ∀ listings : List ListingRecord,
      (saveToJson listings).length = (csvDataRows (saveToCsv listings)).length ∧
      ∀ i obj, (saveToJson listings).get? i = some obj →
        obj.map Prod.fst = fieldnames ∧
        (csvDataRows (saveToCsv listings)).get? i = some (obj.map Prod.snd) := by
  intro listings
  cases listings with
  | nil =>
    refine ⟨by simp [saveToJson, saveToCsv, csvDataRows], ?_⟩
    intro i obj h
    simp [saveToJson] at h
  | cons a l =>
    have hcsv : csvDataRows (saveToCsv (a :: l)) = (a :: l).map csvRow := by
      simp [saveToCsv, csvDataRows]
    constructor
    · rw [hcsv]
      simp [saveToJson]
    · intro i obj h
      rw [hcsv]
      unfold saveToJson at h
      rw [List.get?_map] at h
      cases hr : (a :: l).get? i with
      | none => rw [hr] at h; cases h
      | some r =>
        rw [hr] at h
        cases h
        refine ⟨rfl, ?_⟩
        rw [List.get?_map, hr]
        rfl

/-- Claim C7, witness. -/
theorem json_csv_consistency_witness :
    (recordPairs (parseListing Scraper.init nodeP1)).map Prod.fst = fieldnames ∧
    (csvDataRows (saveToCsv [parseListing Scraper.init nodeP1])).get? 0 =
      some ((recordPairs (parseListing Scraper.init nodeP1)).map Prod.snd) :=
  (json_csv_consistency [parseListing Scraper.init nodeP1]).2 0
    (recordPairs (parseListing Scraper.init nodeP1)) (by rfl)

/-- Claim C8: field extraction is a pure, deterministic function of the
input node's markup — two scraper instances produced by `__init__` (two
separate runs) extract the same record from the same node. -/
theorem extraction_deterministic :
    ∀ s1 s2 : Scraper, s1 = Scraper.init → s2 = Scraper.init →
      ∀ node : Html, parseListing s1 node = parseListing s2 node := by
  intro s1 s2 h1 h2 node
  rw [h1, h2]

/-- Claim C8, witness. -/
theorem extraction_deterministic_witness :
    parseListing Scraper.init nodeP1 = parseListing Scraper.init nodeP1 :=
  extraction_deterministic Scraper.init Scraper.init rfl rfl nodeP1

/-- Claim C9: a page whose fetch succeeds with an empty payload is treated
exactly like a transport failure: it is classified `fetchFail`, the
extractor never runs on it, the loop still proceeds to the next in-range
page, and rewriting the oracle to return the distinct failure value `none`
on empty payloads changes nothing about the whole run. -/
theorem empty_payload_like_fetch_failure :
    ∀ (s : Scraper) (fetch : String → Option String) (soupOf : String → Html)
      (m p : Nat), fetch (pageUrl s p) = some "" →
      pageOutcome s fetch soupOf p = .fetchFail ∧
      p ∉ (scrapeRun s fetch soupOf m).extracted ∧
      (p ∈ (scrapeRun s fetch soupOf m).fetched → p + 1 ∈ pagesFrom 1 m →
        p + 1 ∈ (scrapeRun s fetch soupOf m).fetched) ∧
      scrapeRun s (normalizeFetch fetch) soupOf m = scrapeRun s fetch soupOf m := by
  intro s f so m p h
  have ho : pageOutcome s f so p = .fetchFail := by
    unfold pageOutcome
    rw [h]
    simp [contentFalsy]
  refine ⟨ho, ?_, ?_, ?_⟩
  · rw [scrapeRun_eq]
    exact extractedAux_not_fetchFail ho _
  · intro hmem hnext
    rw [scrapeRun_eq] at hmem ⊢
    exact fetchedAux_next (by simp [ho]) m 1 hmem hnext
  · have hfun : pageOutcome s (normalizeFetch f) so = pageOutcome s f so :=
      funext (pageOutcome_normalize s f so)
    rw [scrapeRun_eq, scrapeRun_eq, hfun]

/-- Claim C9, witness: page 2 of the blank scenario returns an empty
payload; it is skipped, unparsed, and page 3 is still fetched. -/
theorem empty_payload_like_fetch_failure_witness :
    pageOutcome Scraper.init blankFetch mixedSoup 2 = .fetchFail ∧
    2 ∉ (scrapeRun Scraper.init blankFetch mixedSoup 3).extracted ∧
    3 ∈ (scrapeRun Scraper.init blankFetch mixedSoup 3).fetched ∧
    scrapeRun Scraper.init (normalizeFetch blankFetch) mixedSoup 3 =
      scrapeRun Scraper.init blankFetch mixedSoup 3 := by
  have h :=
    empty_payload_like_fetch_failure Scraper.init blankFetch mixedSoup 3 2 rfl
  exact ⟨h.1, h.2.1, h.2.2.1 (by decide) (by decide), h.2.2.2⟩

/-- Claim C10: a node whose title element is present with text stripping to
the literal `"N/A"` gets the sentinel title, is dropped by the title filter
wherever it occurs among a page's candidates, and is indistinguishable (by
title) from a node with no title element at all. -/
theorem literal_sentinel_title_excluded :
    ∀ (s : Scraper) (node e : Html),
      findAut node "span" "itemTitle" = some e →
      getTextStrip e = "N/A" →
      (parseListing s node).title = "N/A" ∧
      (∀ ns1 ns2 : List Html,
        validRecords s (ns1 ++ node :: ns2) = validRecords s (ns1 ++ ns2)) ∧
      (∀ node2 : Html, findAut node2 "span" "itemTitle" = none →
        (parseListing s node2).title = (parseListing s node).title) := by
  intro s node e hfind htext
  have ht : (parseListing s node).title = "N/A" := by
    simp [parseListing, hfind, htext]
  refine ⟨ht, ?_, ?_⟩
  · intro ns1 ns2
    unfold validRecords
    simp [List.map_append, List.filter_append, ht]
  · intro node2 h2
    rw [ht]
    simp [parseListing, h2]

/-- Claim C10, witness. -/
theorem literal_sentinel_title_excluded_witness :
    (parseListing Scraper.init naNode).title = "N/A" ∧
    validRecords Scraper.init ([] ++ naNode :: []) =
      validRecords Scraper.init ([] ++ []) := by
  have h :=
    literal_sentinel_title_excluded Scraper.init naNode naTitleSpan rfl rfl
  exact ⟨h.1, h.2.1 [] []⟩
